import Mathlib

/-!
Verification of the tgbot-translate command dispatcher (src/main.rs).

The development shallowly embeds the program:
  * `Json` models `serde_json::Value`; square-bracket navigation that yields
    `Null` on a missing key / wrong shape is `Json.getField` / `Json.getIdx`.
  * The three backend operations `get_languages`, `detect_language` and
    `translate` are split into their response-parsing part (a pure function
    of the response `Json`) and a `CallResult`-level wrapper; a Rust
    `.unwrap()` on a failed navigation is modelled by the `Outcome.panics`
    constructor, a returned `reqwest::Result` by `Outcome.returns`.
  * The `HashMap` the language directory is collected into is modelled by
    `hmOfList` (an association list built by insert-or-replace, later
    duplicates winning, as `collect::<HashMap<_,_>>()` does).
  * The dispatcher `answer` is a trace semantics: given the directory and an
    oracle giving the (function-return-level) result of each backend call, it
    yields the list of events the handler performs, in order — backend calls
    and `bot.send_message` payloads.
  * The raw detect request body built by
    `format!(r#"{{"q": "{}"}}"#, text)` is `detectBody`; `parseDetectBody`
    is a standard JSON reader for texts of the shape `{"q": <string-literal>}`
    (string escapes per the JSON grammar), used to express whether that body
    is a valid JSON encoding of the text.
-/

namespace TgbotTranslate

/-- Model of `serde_json::Value`. -/
inductive Json where
  | null
  | bool (b : Bool)
  | num (n : Int)
  | str (s : String)
  | arr (xs : List Json)
  | obj (fields : List (String × Json))

/-- `value["key"]`: yields the field, or `Null` when the value is not an
object or the key is absent (serde_json `Index` semantics). -/
def Json.getField : Json → String → Json
  | .obj fs, k =>
    match fs.lookup k with
    | some v => v
    | none => .null
  | _, _ => .null

/-- `value[i]`: yields the element, or `Null` when the value is not an array
or the index is out of bounds (serde_json `Index` semantics). -/
def Json.getIdx : Json → Nat → Json
  | .arr xs, i => xs.getD i .null
  | _, _ => .null

/-- `Value::as_str`. -/
def Json.asStr : Json → Option String
  | .str s => some s
  | _ => none

/-- `Value::as_array`. -/
def Json.asArr : Json → Option (List Json)
  | .arr xs => some xs
  | _ => none

/-- A `reqwest::Result`: `ok` models `Ok`, `err` models a network/HTTP/JSON
error `Err(reqwest::Error)`. -/
inductive RResult (α : Type) where
  | ok (a : α)
  | err
deriving DecidableEq

/-- How one invocation of a backend function ends: it either returns a
`reqwest::Result`, or panics (a Rust `.unwrap()` on `None`). -/
inductive Outcome (α : Type) where
  | panics
  | returns (r : RResult α)

/-- What the HTTP layer of one backend call produced: a network/HTTP/JSON
parse failure (the `?` operators in the source return `Err`), or a parsed
JSON body. -/
inductive CallResult where
  | netErr
  | body (j : Json)

/-- The parsing part of `get_languages`
(`resp_json["data"]["languages"].as_array().unwrap()` then for each item
`item["name"].as_str().unwrap()` / `item["language"].as_str().unwrap()`):
`none` models a panic of one of the unwraps. -/
def getLanguagesParse (j : Json) : Option (List (String × String)) :=
  match ((j.getField "data").getField "languages").asArr with
  | none => none
  | some items =>
    items.mapM fun item =>
      match (item.getField "name").asStr, (item.getField "language").asStr with
      | some n, some l => some (n, l)
      | _, _ => none

/-- The parsing part of `detect_language`
(`resp_json["data"]["detections"][0][0]["language"].as_str().unwrap()`):
`none` models the panic of the unwrap. -/
def detectLanguageParse (j : Json) : Option String :=
  (((((j.getField "data").getField "detections").getIdx 0).getIdx 0).getField
    "language").asStr

/-- The JSON value at `data.translations[0].translatedText` of a translate
response. -/
def translatedTextVal (j : Json) : Json :=
  (((j.getField "data").getField "translations").getIdx 0).getField
    "translatedText"

/-- The parsing part of `translate`:
`...["translatedText"].as_str().unwrap_or_else(|| "<error>")`. Total: the
missing-field case degrades to the sentinel instead of panicking. -/
def translateParse (j : Json) : String :=
  match (translatedTextVal j).asStr with
  | some s => s
  | none => "<error>"

/-- `get_languages` at the call level: a transport failure propagates as
`Err` via `?`; a parsed body goes through `getLanguagesParse`, whose failure
is a panic. -/
def getLanguagesCall : CallResult → Outcome (List (String × String))
  | .netErr => .returns .err
  | .body j =>
    match getLanguagesParse j with
    | some r => .returns (.ok r)
    | none => .panics

/-- `detect_language` at the call level. -/
def detectLanguageCall : CallResult → Outcome String
  | .netErr => .returns .err
  | .body j =>
    match detectLanguageParse j with
    | some s => .returns (.ok s)
    | none => .panics

/-- `translate` at the call level: never panics; a parsed body always yields
`Ok` (possibly of the sentinel `"<error>"`). -/
def translateCall : CallResult → Outcome String
  | .netErr => .returns .err
  | .body j => .returns (.ok (translateParse j))

/-- Insert-or-replace on an association list, the `HashMap::insert`
semantics. -/
def hmInsert (m : List (String × String)) (k v : String) :
    List (String × String) :=
  if m.any (fun p => p.1 = k) then
    m.map fun p => if p.1 = k then (k, v) else p
  else
    m ++ [(k, v)]

/-- `collect::<HashMap<String, String>>()`: fold the pairs into a map,
later duplicates overwriting earlier ones. -/
def hmOfList (l : List (String × String)) : List (String × String) :=
  l.foldl (fun m p => hmInsert m p.1 p.2) []

/-- The parsed `Command` enum. -/
inductive Command where
  | help
  | languages
  | detectLanguage (text : String)
  | translateTo (language : String) (text : String)
  | translateFromTo (fromLanguage : String) (toLanguage : String)
      (text : String)

/-- The language-token resolution done in the TranslateTo and
TranslateFromTo branches:
`LANGUAGES.get().unwrap().get(&tok).cloned().unwrap_or(tok)`. -/
def resolve (langs : List (String × String)) (tok : String) : String :=
  match langs.lookup tok with
  | some code => code
  | none => tok

/-- The results the two backend functions reachable from `answer` return on
each invocation (function-return level, i.e. the `reqwest::Result` the
dispatcher matches on). -/
structure Oracle where
  detect : String → RResult String
  translate : String → String → String → RResult String

/-- Observable events of one `answer` invocation, in program order. -/
inductive Event where
  | callDetect (text : String)
  | callTranslate (src : String) (tgt : String) (text : String)
  | send (msg : String)
deriving DecidableEq

/-- `Command::descriptions()` as assembled by the teloxide derive from the
`description` attributes of the `Command` enum. -/
def helpText : String :=
  "These commands are supported:\n/help — Display this text.\n/languages — Get list of supported languages.\n/detectlanguage — Detect language.\n/translateto — Translates text into given language. Input language is autodetected.\n/translatefromto — Translates text from given language into given language."

/-- The display names of the directory, in iteration order
(`LANGUAGES.get().unwrap().keys()`). -/
def languagesKeys (langs : List (String × String)) : List String :=
  langs.map Prod.fst

/-- `format!("{:?}", keys.collect::<Vec<_>>())`: Debug rendering of the key
vector. -/
def formatKeys (keys : List String) : String :=
  "[" ++ String.intercalate ", " (keys.map fun s => "\"" ++ s ++ "\"") ++ "]"

/-- The dispatcher `answer`, as the trace of backend calls and sent messages
it performs for one command, given the directory and the outcome of each
backend call. -/
def answer (langs : List (String × String)) (o : Oracle) :
    Command → List Event
  | .help => [.send helpText]
  | .languages => [.send (formatKeys (languagesKeys langs))]
  | .detectLanguage text =>
    match o.detect text with
    | .ok lang => [.callDetect text, .send lang]
    | .err => [.callDetect text, .send "Internal error"]
  | .translateTo language text =>
    let toLang := resolve langs language
    match o.detect text with
    | .err => [.callDetect text, .send "Internal error"]
    | .ok fromLang =>
      match o.translate fromLang toLang text with
      | .ok res =>
        [.callDetect text, .callTranslate fromLang toLang text, .send res]
      | .err =>
        [.callDetect text, .callTranslate fromLang toLang text,
          .send "Internal error"]
  | .translateFromTo fromLanguage toLanguage text =>
    let f := resolve langs fromLanguage
    let t := resolve langs toLanguage
    match o.translate f t text with
    | .ok res => [.callTranslate f t text, .send res]
    | .err => [.callTranslate f t text, .send "Internal error"]

/-- The messages sent to the chat within a trace, in order. -/
def sends (tr : List Event) : List String :=
  tr.filterMap fun e =>
    match e with
    | .send m => some m
    | _ => none

/-- Whether an event is a backend call whose result (per the oracle) is an
error. -/
def callErrored (o : Oracle) : Event → Prop
  | .callDetect t => o.detect t = .err
  | .callTranslate f t x => o.translate f t x = .err
  | .send _ => False

/-- The raw detect request body the source builds with `format!` from the
template `{"q": "<text>"}`: the text is pasted verbatim between the quotes
of the template, with no JSON escaping. -/
def detectBody (text : String) : String :=
  "\x7b\"q\": \"" ++ text ++ "\"\x7d"

/-- The value of a single-character JSON string escape `\c` (the `\uXXXX`
form is handled separately). -/
def escChar : Char → Option Char
  | '"' => some '"'
  | '\\' => some '\\'
  | '/' => some '/'
  | 'b' => some (Char.ofNat 8)
  | 'f' => some (Char.ofNat 12)
  | 'n' => some (Char.ofNat 10)
  | 'r' => some (Char.ofNat 13)
  | 't' => some (Char.ofNat 9)
  | _ => none

/-- Value of a hexadecimal digit. -/
def hexVal (c : Char) : Option Nat :=
  if '0' ≤ c ∧ c ≤ '9' then some (c.toNat - 48)
  else if 'a' ≤ c ∧ c ≤ 'f' then some (c.toNat - 87)
  else if 'A' ≤ c ∧ c ≤ 'F' then some (c.toNat - 55)
  else none

/-- Scan the remainder of a JSON string literal (everything after the
opening quote): decode escapes until the unescaped closing quote, returning
the decoded characters and the input left after the closing quote. -/
def scanStr : List Char → Option (List Char × List Char)
  | [] => none
  | '"' :: rest => some ([], rest)
  | '\\' :: 'u' :: h1 :: h2 :: h3 :: h4 :: rest =>
    match hexVal h1, hexVal h2, hexVal h3, hexVal h4 with
    | some a, some b, some c, some d =>
      match scanStr rest with
      | some (u, rem) =>
        some (Char.ofNat (((a * 16 + b) * 16 + c) * 16 + d) :: u, rem)
      | none => none
    | _, _, _, _ => none
  | '\\' :: c :: rest =>
    match escChar c with
    | some d =>
      match scanStr rest with
      | some (u, rem) => some (d :: u, rem)
      | none => none
    | none => none
  | c :: rest =>
    match scanStr rest with
    | some (u, rem) => some (c :: u, rem)
    | none => none

/-- Read a JSON text of the exact shape of the detect body template — the
characters `\x7b"q": "` followed by the rest of a JSON string literal and a
closing `\x7d` — and return the decoded string. `some t` means the input is
a valid JSON encoding of the object mapping `"q"` to the text `t`. -/
def parseDetectBody (s : String) : Option String :=
  match s.data with
  | '\x7b' :: '"' :: 'q' :: '"' :: ':' :: ' ' :: '"' :: rest =>
    match scanStr rest with
    | some (u, ['\x7d']) => some (String.mk u)
    | _ => none
  | _ => none

/-! ### Helper lemmas -/

/-- A successful scan consumes at least one input character per decoded
character plus the closing quote; consuming exactly that much forces the
literal to be escape-free, i.e. the decoded text is the consumed text and
contains neither a quote nor a backslash. -/
theorem scanStr_length (cs : List Char) :
    ∀ u rem, scanStr cs = some (u, rem) →
      u.length + rem.length + 1 ≤ cs.length ∧
        (u.length + rem.length + 1 = cs.length →
          cs = u ++ '"' :: rem ∧ ∀ c ∈ u, c ≠ '"' ∧ c ≠ '\\') := by
  induction cs using scanStr.induct with
  | case1 =>
    intro u rem h
    simp [scanStr] at h
  | case2 rest =>
    intro u rem h
    simp [scanStr] at h
    obtain ⟨hu, hrem⟩ := h
    subst hu; subst hrem
    simp
  | case3 h1 h2 h3 h4 rest a b c d hd hc hb ha u' rem' hscan ih =>
    intro u rem h
    simp [scanStr, ha, hb, hc, hd, hscan] at h
    obtain ⟨hu, hrem⟩ := h
    subst hu; subst hrem
    obtain ⟨hle, _⟩ := ih u' rem' hscan
    refine ⟨by simp; omega, fun heq => ?_⟩
    exfalso
    simp at heq
    omega
  | case4 h1 h2 h3 h4 rest a b c d hd hc hb ha hscan ih =>
    intro u rem h
    simp [scanStr, ha, hb, hc, hd, hscan] at h
  | case5 h1 h2 h3 h4 rest hfail =>
    intro u rem h
    cases hh1 : hexVal h1 <;> cases hh2 : hexVal h2 <;>
      cases hh3 : hexVal h3 <;> cases hh4 : hexVal h4 <;>
      simp [scanStr, hh1, hh2, hh3, hh4] at h
    exact (hfail _ _ _ _ hh1 hh2 hh3 hh4).elim
  | case6 c rest hnotu d hesc u' rem' hscan ih =>
    intro u rem h
    simp [scanStr, hesc, hscan] at h
    obtain ⟨hu, hrem⟩ := h
    subst hu; subst hrem
    obtain ⟨hle, _⟩ := ih u' rem' hscan
    refine ⟨by simp; omega, fun heq => ?_⟩
    exfalso
    simp at heq
    omega
  | case7 c rest hnotu d hesc hscan ih =>
    intro u rem h
    simp [scanStr, hesc, hscan] at h
  | case8 c rest hnotu hesc =>
    intro u rem h
    simp [scanStr, hesc] at h
  | case9 c rest hnq hnu hnbs u' rem' hscan ih =>
    intro u rem h
    simp [scanStr, hscan] at h
    obtain ⟨hu, hrem⟩ := h
    subst hu; subst hrem
    obtain ⟨hle, hpart⟩ := ih u' rem' hscan
    constructor
    · simp; omega
    · intro heq
      simp at heq
      have hlen : u'.length + rem'.length + 1 = rest.length := by omega
      obtain ⟨hrest, hall⟩ := hpart hlen
      constructor
      · simp [hrest]
      · intro x hx
        rcases List.mem_cons.mp hx with hxc | hxu
        · subst hxc
          refine ⟨fun hq => hnq hq, fun hbs => ?_⟩
          cases hr : rest with
          | nil => rw [hr] at hrest; simp at hrest
          | cons r rs => exact hnbs r rs hbs hr
        · exact hall x hxu
  | case10 c rest hnq hnu hnbs hscan ih =>
    intro u rem h
    simp [scanStr, hscan] at h

/-- The character list of the detect body: the seven template characters,
the text, the closing quote and brace. -/
theorem detectBody_data (t : String) :
    (detectBody t).data =
      '\x7b' :: '"' :: 'q' :: '"' :: ':' :: ' ' :: '"' ::
        (t.data ++ ['"', '\x7d']) := by
  show ("\x7b\"q\": \"" ++ t ++ "\"\x7d").data = _
  simp [String.data_append]

/-- An association-list lookup succeeds exactly on the keys. -/
theorem lookup_isSome_iff_mem_keys (l : List (String × String)) (k : String) :
    (l.lookup k).isSome ↔ k ∈ l.map Prod.fst := by
  induction l with
  | nil => simp [List.lookup]
  | cons p l ih =>
    cases p with
    | mk a b =>
      by_cases h : k = a
      · subst h
        simp [List.lookup]
      · have hbeq : (k == a) = false := beq_eq_false_iff_ne.mpr h
        simp [List.lookup, hbeq, ih, h]

/-- Inserting an existing key leaves the key list unchanged. -/
theorem hmInsert_keys_mem (m : List (String × String)) (k v : String)
    (h : k ∈ languagesKeys m) :
    languagesKeys (hmInsert m k v) = languagesKeys m := by
  have hany : m.any (fun p => p.1 = k) = true := by
    simp only [languagesKeys] at h
    obtain ⟨p, hp, hpk⟩ := List.mem_map.mp h
    rw [List.any_eq_true]
    exact ⟨p, hp, by simp [hpk]⟩
  simp only [hmInsert, hany, if_true]
  simp only [languagesKeys, List.map_map]
  apply List.map_congr_left
  intro p _
  by_cases hpk : p.1 = k
  · simp [hpk]
  · simp [hpk]

/-- Inserting a new key appends it to the key list. -/
theorem hmInsert_keys_not_mem (m : List (String × String)) (k v : String)
    (h : k ∉ languagesKeys m) :
    languagesKeys (hmInsert m k v) = languagesKeys m ++ [k] := by
  have hany : m.any (fun p => p.1 = k) = false := by
    simp only [languagesKeys] at h
    simp [List.any_eq_false]
    intro a b hab hk
    exact h (List.mem_map.mpr ⟨(a, b), hab, hk⟩)
  simp [hmInsert, hany, languagesKeys]

/-- Membership in the key list after an insert. -/
theorem hmInsert_keys_mem_iff (m : List (String × String)) (k v k' : String) :
    k' ∈ languagesKeys (hmInsert m k v) ↔
      k' ∈ languagesKeys m ∨ k' = k := by
  by_cases h : k ∈ languagesKeys m
  · rw [hmInsert_keys_mem m k v h]
    constructor
    · exact Or.inl
    · rintro (hk | rfl)
      · exact hk
      · exact h
  · rw [hmInsert_keys_not_mem m k v h]
    simp

/-- Insert preserves distinctness of the keys. -/
theorem hmInsert_keys_nodup (m : List (String × String)) (k v : String)
    (h : (languagesKeys m).Nodup) :
    (languagesKeys (hmInsert m k v)).Nodup := by
  by_cases hk : k ∈ languagesKeys m
  · rw [hmInsert_keys_mem m k v hk]; exact h
  · rw [hmInsert_keys_not_mem m k v hk]
    simp [List.nodup_append, h, hk]

/-- Folding inserts over any starting map preserves key distinctness. -/
theorem foldl_hmInsert_nodup (l : List (String × String)) :
    ∀ m, (languagesKeys m).Nodup →
      (languagesKeys (l.foldl (fun m p => hmInsert m p.1 p.2) m)).Nodup := by
  induction l with
  | nil => intro m h; exact h
  | cons p l ih =>
    intro m h
    exact ih (hmInsert m p.1 p.2) (hmInsert_keys_nodup m p.1 p.2 h)

/-- Keys after folding inserts: the starting keys plus the inserted ones. -/
theorem foldl_hmInsert_mem (l : List (String × String)) :
    ∀ m k, k ∈ languagesKeys (l.foldl (fun m p => hmInsert m p.1 p.2) m) ↔
      k ∈ languagesKeys m ∨ k ∈ l.map Prod.fst := by
  induction l with
  | nil => intro m k; simp
  | cons p l ih =>
    intro m k
    simp only [List.foldl_cons]
    rw [ih (hmInsert m p.1 p.2) k]
    rw [hmInsert_keys_mem_iff]
    simp [or_assoc, or_comm, or_left_comm]

/-! ### Claim theorems -/

/-- Claim C1: for every display name that is a key of the language
directory, resolving it (as done in the TranslateTo and TranslateFromTo
branches) yields the mapped code; for every token that is not a key of the
directory, resolution yields the token itself unchanged. -/
theorem claim1_resolve (langs : List (String × String)) (tok code : String) :
    (langs.lookup tok = some code → resolve langs tok = code) ∧
      (langs.lookup tok = none → resolve langs tok = tok) := by
  constructor
  · intro h
    simp [resolve, h]
  · intro h
    simp [resolve, h]

/-- Witness for C1 at a concrete directory: a present name maps to its
code, an absent token passes through. -/
theorem claim1_resolve_witness :
    resolve [("French", "fr")] "French" = "fr" ∧
      resolve [("French", "fr")] "xx" = "xx" :=
  ⟨(claim1_resolve [("French", "fr")] "French" "fr").1 rfl,
    (claim1_resolve [("French", "fr")] "xx" "xx").2 rfl⟩

/-- Claim C2: in the TranslateTo branch the detect call is the first event
of the trace and is invoked with the original inbound text; if detection
fails, the trace is exactly the detect call followed by the "Internal
error" reply, and in particular no translate call ever happens. -/
theorem claim2_translateTo_detect_first (langs : List (String × String))
    (o : Oracle) (language text : String) :
    (∃ rest, answer langs o (.translateTo language text) =
        Event.callDetect text :: rest) ∧
      (o.detect text = .err →
        answer langs o (.translateTo language text) =
            [Event.callDetect text, Event.send "Internal error"] ∧
          ∀ f t x, Event.callTranslate f t x ∉
            answer langs o (.translateTo language text)) := by
  cases hd : o.detect text with
  | err =>
    refine ⟨⟨[Event.send "Internal error"], by simp [answer, hd]⟩,
      fun _ => ⟨by simp [answer, hd], ?_⟩⟩
    intro f t x
    simp [answer, hd]
  | ok fromLang =>
    refine ⟨?_, fun hcontra => absurd hcontra (by simp)⟩
    cases ht : o.translate fromLang (resolve langs language) text with
    | ok res =>
      exact ⟨[Event.callTranslate fromLang (resolve langs language) text,
        Event.send res], by simp [answer, hd, ht]⟩
    | err =>
      exact ⟨[Event.callTranslate fromLang (resolve langs language) text,
        Event.send "Internal error"], by simp [answer, hd, ht]⟩

/-- Witness for C2: with a failing detect backend, TranslateTo performs the
detect call on the original text and replies "Internal error" without
calling translate. -/
theorem claim2_witness :
    answer [] ⟨fun _ => RResult.err, fun _ _ _ => RResult.err⟩
        (Command.translateTo "fr" "hi") =
      [Event.callDetect "hi", Event.send "Internal error"] :=
  ((claim2_translateTo_detect_first []
      ⟨fun _ => RResult.err, fun _ _ _ => RResult.err⟩ "fr" "hi").2 rfl).1

/-- Claim C5: whenever the trace of a command contains a backend call whose
result is an error, the reply sent to the chat is exactly the single string
"Internal error". -/
theorem claim5_internal_error (langs : List (String × String)) (o : Oracle)
    (cmd : Command) (h : ∃ e ∈ answer langs o cmd, callErrored o e) :
    sends (answer langs o cmd) = ["Internal error"] := by
  obtain ⟨e, he, herr⟩ := h
  cases cmd with
  | help =>
    simp [answer] at he
    subst he
    simp [callErrored] at herr
  | languages =>
    simp [answer] at he
    subst he
    simp [callErrored] at herr
  | detectLanguage text =>
    cases hd : o.detect text with
    | err => simp [answer, sends, hd]
    | ok s =>
      simp [answer, hd] at he
      rcases he with rfl | rfl <;> simp [callErrored, hd] at herr
  | translateTo language text =>
    cases hd : o.detect text with
    | err => simp [answer, sends, hd]
    | ok fl =>
      cases ht : o.translate fl (resolve langs language) text with
      | err => simp [answer, sends, hd, ht]
      | ok res =>
        simp [answer, hd, ht] at he
        rcases he with rfl | rfl | rfl <;> simp [callErrored, hd, ht] at herr
  | translateFromTo f t x =>
    cases ht : o.translate (resolve langs f) (resolve langs t) x with
    | err => simp [answer, sends, ht]
    | ok res =>
      simp [answer, ht] at he
      rcases he with rfl | rfl <;> simp [callErrored, ht] at herr

/-- Witness for C5: a failing detect call makes DetectLanguage reply
exactly "Internal error". -/
theorem claim5_witness :
    sends (answer [] ⟨fun _ => RResult.err, fun _ _ _ => RResult.err⟩
        (Command.detectLanguage "hi")) = ["Internal error"] :=
  claim5_internal_error [] ⟨fun _ => RResult.err, fun _ _ _ => RResult.err⟩
    (Command.detectLanguage "hi")
    ⟨Event.callDetect "hi", by simp [answer], rfl⟩

/-- Claim C6: the TranslateFromTo branch invokes translate (its first and
only backend call) with the resolved source code, the resolved target code
and the original text; in particular, with the directory
`[("French", "fr"), ("Spanish", "es")]` the command
`TranslateFromTo "French" "Spanish" "Bonjour"` invokes translate with
`("fr", "es", "Bonjour")`. -/
theorem claim6_translateFromTo_args (langs : List (String × String))
    (o : Oracle) (f t x : String) :
    (answer langs o (.translateFromTo f t x)).head? =
        some (Event.callTranslate (resolve langs f) (resolve langs t) x) ∧
      (answer [("French", "fr"), ("Spanish", "es")] o
          (.translateFromTo "French" "Spanish" "Bonjour")).head? =
        some (Event.callTranslate "fr" "es" "Bonjour") := by
  constructor
  · cases ht : o.translate (resolve langs f) (resolve langs t) x <;>
      simp [answer, ht]
  · have h1 : resolve [("French", "fr"), ("Spanish", "es")] "French" = "fr" :=
      rfl
    have h2 : resolve [("French", "fr"), ("Spanish", "es")] "Spanish" = "es" :=
      rfl
    cases ht : o.translate "fr" "es" "Bonjour" <;>
      simp [answer, h1, h2, ht]

/-- Claim C7: the Languages reply is built from the key list of the
directory (as collected into a hash map from the backend pairs); that key
list has no duplicates and holds exactly the display names occurring among
the pairs — no omissions, no additions. -/
theorem claim7_languages_keys (pairs : List (String × String)) (o : Oracle) :
    answer (hmOfList pairs) o Command.languages =
        [Event.send (formatKeys (languagesKeys (hmOfList pairs)))] ∧
      (languagesKeys (hmOfList pairs)).Nodup ∧
      ∀ k, k ∈ languagesKeys (hmOfList pairs) ↔ k ∈ pairs.map Prod.fst := by
  refine ⟨rfl, ?_, ?_⟩
  · exact foldl_hmInsert_nodup pairs [] (by simp [languagesKeys])
  · intro k
    simp only [hmOfList]
    rw [foldl_hmInsert_mem pairs [] k]
    simp [languagesKeys]

/-- Claim C8: every command, under every outcome (success or error) of the
backend calls it makes, sends exactly one reply message to the chat. -/
theorem claim8_one_reply (langs : List (String × String)) (o : Oracle)
    (cmd : Command) : (sends (answer langs o cmd)).length = 1 := by
  cases cmd with
  | help => simp [answer, sends]
  | languages => simp [answer, sends]
  | detectLanguage text =>
    cases hd : o.detect text <;> simp [answer, sends, hd]
  | translateTo language text =>
    cases hd : o.detect text with
    | err => simp [answer, sends, hd]
    | ok fl =>
      cases ht : o.translate fl (resolve langs language) text <;>
        simp [answer, sends, hd, ht]
  | translateFromTo f t x =>
    cases ht : o.translate (resolve langs f) (resolve langs t) x <;>
      simp [answer, sends, ht]

/-- Claim C10: the translate operation returns the sentinel whenever the
value at `data.translations[0].translatedText` is not a string — also when
`data`, `translations` or the first element is absent, or the value is a
number, null, an object or an array. -/
theorem claim10_nonstring_sentinel (j : Json)
    (h : (translatedTextVal j).asStr = none) :
    translateParse j = "<error>" ∧
      translateParse (Json.obj []) = "<error>" ∧
      translateParse (Json.obj [("data", Json.obj [])]) = "<error>" ∧
      translateParse
          (Json.obj [("data", Json.obj [("translations", Json.arr [])])]) =
        "<error>" ∧
      translateParse (Json.obj [("data", Json.obj [("translations",
          Json.arr [Json.obj [("translatedText", Json.num 5)]])])]) =
        "<error>" ∧
      translateParse (Json.obj [("data", Json.obj [("translations",
          Json.arr [Json.obj [("translatedText", Json.null)]])])]) =
        "<error>" ∧
      translateParse (Json.obj [("data", Json.obj [("translations",
          Json.arr [Json.obj [("translatedText", Json.obj [])]])])]) =
        "<error>" ∧
      translateParse (Json.obj [("data", Json.obj [("translations",
          Json.arr [Json.obj [("translatedText", Json.arr [])]])])]) =
        "<error>" :=
  ⟨by simp [translateParse, h], rfl, rfl, rfl, rfl, rfl, rfl, rfl⟩

/-- Witness for C10 at the empty response. -/
theorem claim10_witness : translateParse Json.null = "<error>" :=
  (claim10_nonstring_sentinel Json.null rfl).1

/-- Counterexample to C3 as stated: on the response body `\x7b\x7d`, whose
JSON lacks the assumed fields, both list-languages and detect-language end
in a panic (an `unwrap` on `None`), not in a client-level error returned to
the caller. -/
theorem claim3_counterexample :
    getLanguagesCall (CallResult.body (Json.obj [])) = Outcome.panics ∧
      detectLanguageCall (CallResult.body (Json.obj [])) = Outcome.panics :=
  ⟨rfl, rfl⟩

/-- Claim C3 amended: when a list-languages or detect-language response
lacks an assumed field, the backend client panics (it neither returns a
client-level error nor silently produces empty data); only the translate
operation never panics, degrading its missing translated-text field to the
sentinel instead. -/
theorem claim3_amended_panics (j j' : Json) (c : CallResult)
    (h1 : getLanguagesParse j = none) (h2 : detectLanguageParse j' = none) :
    getLanguagesCall (.body j) = .panics ∧
      detectLanguageCall (.body j') = .panics ∧
      translateCall c ≠ .panics := by
  refine ⟨by simp [getLanguagesCall, h1], by simp [detectLanguageCall, h2], ?_⟩
  cases c <;> simp [translateCall]

/-- Witness for the amended C3 at concrete inputs. -/
theorem claim3_amended_witness :
    getLanguagesCall (.body Json.null) = .panics ∧
      detectLanguageCall (.body Json.null) = .panics ∧
      translateCall CallResult.netErr ≠ .panics :=
  claim3_amended_panics Json.null Json.null CallResult.netErr rfl rfl

/-- Claim C4: a translate response that parses as JSON but has no string at
`data.translations[0].translatedText` makes the translate operation return
`Ok "<error>"` (a success), and the dispatcher relays any `Ok "<error>"`
translate result to the chat as the reply, via the success path. -/
theorem claim4_sentinel_success (j : Json) (langs : List (String × String))
    (o : Oracle) (f t x : String)
    (hj : (translatedTextVal j).asStr = none)
    (ho : o.translate (resolve langs f) (resolve langs t) x =
      .ok "<error>") :
    translateCall (.body j) = .returns (.ok "<error>") ∧
      sends (answer langs o (.translateFromTo f t x)) = ["<error>"] := by
  constructor
  · simp [translateCall, translateParse, hj]
  · simp [answer, ho, sends]

/-- Witness for C4: an empty-object response and an oracle returning the
sentinel. -/
theorem claim4_witness :
    translateCall (.body (Json.obj [])) = .returns (.ok "<error>") ∧
      sends (answer []
          ⟨fun _ => RResult.ok "en", fun _ _ _ => RResult.ok "<error>"⟩
          (Command.translateFromTo "a" "b" "hi")) = ["<error>"] :=
  claim4_sentinel_success (Json.obj []) []
    ⟨fun _ => RResult.ok "en", fun _ _ _ => RResult.ok "<error>"⟩
    "a" "b" "hi" rfl rfl

/-- Claim C9: the detect request body is built by pasting the text verbatim
into the template (no JSON escaping), and consequently for any text holding
a double quote or a backslash the body is not a valid JSON encoding of that
text: reading the body back as a JSON text of the template's shape never
recovers the original text. -/
theorem claim9_detect_body (t : String) :
    detectBody t = "\x7b\"q\": \"" ++ t ++ "\"\x7d" ∧
      (('"' ∈ t.data ∨ '\\' ∈ t.data) →
        parseDetectBody (detectBody t) ≠ some t) := by
  refine ⟨rfl, fun hmem hparse => ?_⟩
  have hform : parseDetectBody (detectBody t) =
      (match scanStr (t.data ++ ['"', '\x7d']) with
        | some (u, ['\x7d']) => some (String.mk u)
        | _ => none) := rfl
  rw [hform] at hparse
  split at hparse
  · rename_i u hsc
    simp only [Option.some.injEq] at hparse
    have hu : u = t.data := by
      cases t with
      | mk l => simpa using congrArg String.data hparse
    subst hu
    obtain ⟨_, hpart⟩ := scanStr_length _ _ _ hsc
    obtain ⟨_, hall⟩ := hpart (by simp)
    rcases hmem with hq | hbs
    · exact (hall '"' hq).1 rfl
    · exact (hall '\\' hbs).2 rfl
  · rename_i hother
    exact Option.noConfusion hparse

/-- Witness for C9: a text with a double quote whose body does not decode
back to it. -/
theorem claim9_witness :
    parseDetectBody (detectBody "a\"b") ≠ some "a\"b" :=
  (claim9_detect_body "a\"b").2 (Or.inl (by decide))

end TgbotTranslate
